import Mathlib

/-!
Shallow embedding of the spreadsheet-to-record extraction engine of
`app.py` (function `process_excel_file`, fixed-offset layout), of the
allocation annotator (`calculate_fte_allocations`), and of the
label-search extraction variant found in the repository's
`.history/app_20250502145533.py` revision of `process_excel_file`.

Modelling conventions:
  * A cell is `Option String`: `none` models a missing value (pandas `NaN`);
    `some s` models the stringified cell content (`str(value)`), since the
    code always coerces cells through `str` before use.
  * A sheet is a `List` of rows; `pd.read_excel(..., header=None)` yields a
    rectangular frame whose width `df.shape[1]` is the maximal row width,
    short rows being padded with `NaN`.  Cell access is therefore
    `row.getD col none`, and the frame width is the maximum row length.
  * Code paths that raise a Python exception (out-of-range `iloc`,
    `KeyError` on a missing column label, `TypeError` on comparing with
    `None`) are modelled as `Except.error ()`.
  * Python `str.strip`, `in` and `split` on strings are modelled by
    structural functions over the string's character list (`pyStrip`,
    `pySplit`, `List.contains`), so that concrete instances evaluate
    inside the kernel.
  * The float `allocation` column is modelled over `ℚ`; the code only ever
    computes `1.0 / n` for a positive integer `n`.
-/

/-- Python `str.strip`: drop leading and trailing whitespace characters. -/
def pyStrip (s : String) : String :=
  ⟨((s.data.dropWhile Char.isWhitespace).reverse.dropWhile
      Char.isWhitespace).reverse⟩

/-- Python `str.split(sep)` for a one-character separator: cut at every
occurrence of the separator, keeping empty pieces. -/
def splitOnChar (p : Char → Bool) : List Char → List (List Char)
  | [] => [[]]
  | c :: cs =>
    if p c then [] :: splitOnChar p cs
    else
      match splitOnChar p cs with
      | [] => [[c]]
      | t :: ts => (c :: t) :: ts

/-- Python `s.split(sep)` as a list of strings. -/
def pySplit (s : String) (sep : Char) : List String :=
  (splitOnChar (· == sep) s.data).map (fun cs => (⟨cs⟩ : String))

/-- A raw cell: `none` is pandas `NaN`, `some s` the stringified content. -/
abbrev Cell := Option String

/-- One sheet row, as the code reads it via `df.iloc[row_idx]`. -/
abbrev SheetRow := List Cell

/-- A sheet: the 2-D grid of cells, rows 0 and 1 being the header rows. -/
abbrev Grid := List SheetRow

/-- The normalized output unit built at `app.py` lines 143-152, together
with the optional `allocation` column added by `calculate_fte_allocations`. -/
structure Record where
  account : String
  client_type : String
  leader : String
  atl_manager : String
  technology_area : String
  role_category : String
  role : String
  person : String
  allocation : Option ℚ := none
deriving DecidableEq

/-- The idiom `pd.isna(v) or not str(v).strip()` / `str(v).strip()`:
returns the trimmed cell content when the cell is present and does not trim
to the empty string, and `none` otherwise (`app.py` lines 82, 103-106). -/
def cellStr : Cell → Option String
  | none => none
  | some s => if pyStrip s = "" then none else some (pyStrip s)

/-- The placeholder test of `app.py` lines 109-110:
`re.match(r'^(TBD|N/A|None|Select|-+)$', s)`.  `re.match` with the `$`
anchor on an already-trimmed string is a full (case-sensitive) match; `-+`
matches a non-empty string of hyphens. -/
def isPlaceholder (s : String) : Bool :=
  s == "TBD" || s == "N/A" || s == "None" || s == "Select" ||
    (!s.data.isEmpty && s.data.all (· == '-'))

/-- The splitting of a personnel cell at `app.py` lines 127-134: split on
commas when a comma is present, else on slashes when a slash is present,
else keep the whole value; each piece is stripped and empty pieces are
dropped (`if name.strip()` filters on the stripped piece). -/
def splitNames (s : String) : List String :=
  if s.data.contains ',' then
    ((pySplit s ',').map pyStrip).filter (fun t => !(t == ""))
  else if s.data.contains '/' then
    ((pySplit s '/').map pyStrip).filter (fun t => !(t == ""))
  else [s]

/-- The Cell Classifier of spec section 4.1, as realised by the per-cell
code path of `app.py` lines 102-140: the list of names a single personnel
cell contributes.  An empty cell or a placeholder cell contributes nothing;
otherwise the cell is split and pieces that are placeholders are dropped
(the second `re.match` at line 139). -/
def classifyNames (c : Cell) : List String :=
  match cellStr c with
  | none => []
  | some s =>
    if isPlaceholder s then []
    else (splitNames s).filter (fun n => !isPlaceholder n)

/-- The leftward scans of `app.py` lines 114-118 and 120-125: starting at
column `c` and walking down to column 0, the first header cell that is
present and non-blank; the loop default is the empty string.  (The code
looks the column up in a dict built from all non-blank cells of the header
row; membership in that dict is exactly `cellStr _ ≠ none`.) -/
def lookBack (hdr : SheetRow) : Nat → String
  | 0 => (cellStr (hdr.getD 0 none)).getD ""
  | c + 1 =>
    match cellStr (hdr.getD (c + 1) none) with
    | some v => v
    | none => lookBack hdr c

/-- `df.shape[1]`: pandas pads every row to the width of the widest row. -/
def gridWidth (g : Grid) : Nat := g.foldr (fun r acc => max r.length acc) 0

/-- The management-field idiom of `app.py` lines 92-94:
`str(row[c]).strip() if not pd.isna(row[c]) else ""`. -/
def mgmtField (row : SheetRow) (c : Nat) : String :=
  ((row.getD c none).map pyStrip).getD ""

/-- The loop body of `app.py` lines 99-156 for one personnel column `col`:
skip an empty cell (lines 102-104), skip a placeholder cell (lines
108-111), resolve role and category by the leftward scans, split the cell
and append one record per non-placeholder piece. -/
def colRecords (name account : String) (cats roles row : SheetRow)
    (col : Nat) : List Record :=
  match cellStr (row.getD col none) with
  | none => []
  | some pname =>
    if isPlaceholder pname then []
    else
      (splitNames pname).filterMap (fun nm =>
        if isPlaceholder nm then none
        else some { account := account
                    client_type := mgmtField row 2
                    leader := mgmtField row 3
                    atl_manager := mgmtField row 4
                    technology_area := name
                    role_category := lookBack cats col
                    role := lookBack roles col
                    person := nm })

/-- The per-data-row body of `app.py` lines 78-156.  `row[1]` raises a
`KeyError` when the frame has fewer than 2 columns, and `row[2]`/`row[3]`/
`row[4]` raise when it has fewer than 5, so those paths are `error`.  A
row whose account cell (column 1) is missing or blank is skipped.
Otherwise every column from index 7 up to the frame width is classified and
one `Record` is appended per surviving name. -/
def rowRecords (name : String) (cats roles : SheetRow) (w : Nat)
    (row : SheetRow) : Except Unit (List Record) :=
  if w < 2 then .error ()
  else
    match cellStr (row.getD 1 none) with
    | none => .ok []
    | some account =>
      if w < 5 then .error ()
      else .ok ((List.range' 7 (w - 7)).flatMap
        (colRecords name account cats roles row))

/-- Sequential processing of the data rows; a raised exception aborts the
whole extraction, so an `error` on any row is an `error` overall. -/
def processRows (name : String) (cats roles : SheetRow) (w : Nat) :
    List SheetRow → Except Unit (List Record)
  | [] => .ok []
  | r :: rs =>
    match rowRecords name cats roles w r with
    | .error e => .error e
    | .ok xs =>
      match processRows name cats roles w rs with
      | .error e => .error e
      | .ok ys => .ok (xs ++ ys)

/-- One sheet of `app.py` `process_excel_file`.  The header loops at lines
54-61 read `df.iloc[0, col]` and `df.iloc[1, col]` for every `col < w`, so
a sheet with exactly one row and positive width raises `IndexError`.  The
data rows are `range(2, min(56, df.shape[0]))`, i.e. rows 2 through 55. -/
def processSheet (name : String) (g : Grid) : Except Unit (List Record) :=
  if g.length = 0 then .ok []
  else if g.length = 1 then (if gridWidth g = 0 then .ok [] else .error ())
  else processRows name (g.getD 0 []) (g.getD 1 []) (gridWidth g)
    ((g.take 56).drop 2)

/-- `process_excel_file` of `app.py`: every sheet in workbook order, the
per-sheet record lists concatenated; an exception in any sheet aborts the
whole call. -/
def process_excel_file : List (String × Grid) → Except Unit (List Record)
  | [] => .ok []
  | (n, g) :: rest =>
    match processSheet n g with
    | .error e => .error e
    | .ok xs =>
      match process_excel_file rest with
      | .error e => .error e
      | .ok ys => .ok (xs ++ ys)

/-- `data_frame.groupby('person')['account'].nunique()` at `app.py` line
470, for one person: the number of distinct account values among the
records of that person. -/
def distinctAccountCount (l : List Record) (p : String) : Nat :=
  (((l.filter (fun r => r.person = p)).map (fun r => r.account)).dedup).length

/-- `calculate_fte_allocations` of `app.py` lines 464-482: every record of
a person appearing on `n` distinct accounts gets `allocation = 1 / n`.
The counts are taken from the incoming list itself, before the column is
(re)assigned. -/
def calculate_fte_allocations (l : List Record) : List Record :=
  l.map (fun r =>
    { r with allocation := some (1 / (distinctAccountCount l r.person : ℚ)) })

/-!
The label-search extraction variant: `process_excel_file` of the
repository revision `.history/app_20250502145533.py`.  That revision reads
each sheet with `pd.read_excel(file_path, sheet_name=sheet_name)` (default
header), so the grid modelled here is the frame the code iterates over
with `iloc`; integer indexing into a row is positional.
-/

/-- This revision's placeholder regex is
`r'^(TBD|N/A|None|Select|-)$'` — a single hyphen only. -/
def isPlaceholderLS (s : String) : Bool :=
  s == "TBD" || s == "N/A" || s == "None" || s == "Select" || s == "-"

/-- The header search: the first row index whose raw values contain the
exact string `"Coverage Name"` (`if "Coverage Name" in row.values`). -/
def findHeaderRow : Grid → Option Nat :=
  let rec go (i : Nat) : Grid → Option Nat
    | [] => none
    | r :: rs =>
      if r.any (fun c => c == some "Coverage Name") then some i
      else go (i + 1) rs
  go 0

/-- Column lookup in the header row: the loop over `column_mapping` keeps
reassigning on every match, so the LAST column whose stripped label equals
`x` wins. -/
def lastColWith (hdr : SheetRow) (w : Nat) (x : String) : Option Nat :=
  (List.range w).foldl
    (fun acc c => if cellStr (hdr.getD c none) = some x then some c else acc)
    none

/-- The management-field idiom of the label-search revision:
`str(row[c]).strip() if c is not None and pd.notna(row[c]) else ""`. -/
def lsMgmt (row : SheetRow) : Option Nat → String
  | none => ""
  | some c => ((row.getD c none).map pyStrip).getD ""

/-- The role-category lookup of the label-search revision: the dict built
there holds, for a role column `c`, the explicit category of the greatest
role column `≤ c` that has one (explicit cells are copied, blank cells
inherit from the nearest previously processed role column); `get(c, "")`
falls back to the empty string. -/
def lsCat (catsRow : Option SheetRow) (roleColIdxs : List Nat) (c : Nat) :
    String :=
  match catsRow with
  | none => ""
  | some cr =>
    ((roleColIdxs.filter (· ≤ c)).foldl
      (fun acc x =>
        match cellStr (cr.getD x none) with
        | some v => some v
        | none => acc) none).getD ""

/-- One data row of the label-search revision (its lines 121-187): skip on
a missing/blank account cell, then one record per surviving name of every
role column. -/
def lsRowRecords (name : String) (aCol : Nat) (cCol lCol mCol : Option Nat)
    (roleCols : List (Nat × String)) (catsRow : Option SheetRow)
    (row : SheetRow) : List Record :=
  match cellStr (row.getD aCol none) with
  | none => []
  | some account =>
    roleCols.flatMap (fun rc =>
      match cellStr (row.getD rc.1 none) with
      | none => []
      | some pname =>
        if isPlaceholderLS pname then []
        else
          (splitNames pname).filterMap (fun nm =>
            if isPlaceholderLS nm then none
            else some { account := account
                        client_type := lsMgmt row cCol
                        leader := lsMgmt row lCol
                        atl_manager := lsMgmt row mCol
                        technology_area := name
                        role_category := lsCat catsRow (roleCols.map (·.1)) rc.1
                        role := rc.2
                        person := nm }))

/-- One sheet of the label-search revision.  No `"Coverage Name"` cell, or
no column whose stripped label is `"Coverage Name"`, skips the sheet (an
explicit `continue`).  When the header row is found but no column matches
`"ATL Manager"`, the role-column loop evaluates `col_idx <= None`, a
`TypeError` — modelled as `error`.  The data rows are every row after the
header row; the categories row is the row directly above the header row
when the header row is not row 0. -/
def lsProcessSheet (name : String) (g : Grid) : Except Unit (List Record) :=
  match findHeaderRow g with
  | none => .ok []
  | some h =>
    let w := gridWidth g
    let hdr := g.getD h []
    match lastColWith hdr w "Coverage Name" with
    | none => .ok []
    | some aCol =>
      match lastColWith hdr w "ATL Manager" with
      | none => .error ()
      | some m =>
        let roleCols := (List.range w).filterMap (fun c =>
          if m < c then (cellStr (hdr.getD c none)).map (fun nm => (c, nm))
          else none)
        let catsRow : Option SheetRow :=
          if h = 0 then none else some (g.getD (h - 1) [])
        .ok ((g.drop (h + 1)).flatMap
          (lsRowRecords name aCol (lastColWith hdr w "Client Sub Type")
            (lastColWith hdr w "Leader") (some m) roleCols catsRow))

/-- The label-search revision's whole-workbook extraction. -/
def process_excel_file_ls : List (String × Grid) → Except Unit (List Record)
  | [] => .ok []
  | (n, g) :: rest =>
    match lsProcessSheet n g with
    | .error e => .error e
    | .ok xs =>
      match process_excel_file_ls rest with
      | .error e => .error e
      | .ok ys => .ok (xs ++ ys)

/-! ### Helper lemmas -/

lemma filterMap_ite {α β : Type} (p : α → Bool) (g : α → β) (l : List α) :
    (l.filterMap (fun a => if p a then none else some (g a))) =
      (l.filter (fun a => !p a)).map g := by
  induction l with
  | nil => rfl
  | cons a t ih =>
    cases hpa : p a <;>
      simp [List.filterMap_cons, List.filter_cons, hpa, ih]

lemma cellStr_ne_empty {c : Cell} {s : String} (h : cellStr c = some s) :
    s ≠ "" := by
  cases c with
  | none => simp [cellStr] at h
  | some t =>
    by_cases ht : pyStrip t = ""
    · simp [cellStr, ht] at h
    · simp only [cellStr, if_neg ht, Option.some.injEq] at h
      rw [← h]
      exact ht

lemma mem_splitNames {s n : String} (hs : s ≠ "") (h : n ∈ splitNames s) :
    n ≠ "" := by
  unfold splitNames at h
  split at h
  · have h1 := List.of_mem_filter h
    simpa using h1
  · split at h
    · have h1 := List.of_mem_filter h
      simpa using h1
    · simp only [List.mem_singleton] at h
      rw [h]
      exact hs

lemma classifyNames_none {c : Cell} (hc : cellStr c = none) :
    classifyNames c = [] := by
  unfold classifyNames
  rw [hc]

lemma classifyNames_some {c : Cell} {s : String} (hc : cellStr c = some s) :
    classifyNames c =
      if isPlaceholder s then []
      else (splitNames s).filter (fun n => !isPlaceholder n) := by
  unfold classifyNames
  rw [hc]

lemma mem_classifyNames {c : Cell} {n : String} (h : n ∈ classifyNames c) :
    n ≠ "" ∧ isPlaceholder n = false := by
  cases hc : cellStr c with
  | none => rw [classifyNames_none hc] at h; simp at h
  | some s =>
    rw [classifyNames_some hc] at h
    cases hp : isPlaceholder s
    · rw [if_neg (by simp [hp])] at h
      have h1 := List.of_mem_filter h
      have h2 := List.mem_of_mem_filter h
      refine ⟨mem_splitNames (cellStr_ne_empty hc) h2, ?_⟩
      simpa using h1
    · rw [if_pos hp] at h
      simp at h

lemma colRecords_none {name account : String} {cats roles row : SheetRow}
    {col : Nat} (hc : cellStr (row.getD col none) = none) :
    colRecords name account cats roles row col = [] := by
  unfold colRecords
  rw [hc]

lemma colRecords_some {name account : String} {cats roles row : SheetRow}
    {col : Nat} {pname : String}
    (hc : cellStr (row.getD col none) = some pname) :
    colRecords name account cats roles row col =
      if isPlaceholder pname then []
      else
        (splitNames pname).filterMap (fun nm =>
          if isPlaceholder nm then none
          else some { account := account
                      client_type := mgmtField row 2
                      leader := mgmtField row 3
                      atl_manager := mgmtField row 4
                      technology_area := name
                      role_category := lookBack cats col
                      role := lookBack roles col
                      person := nm }) := by
  unfold colRecords
  rw [hc]

lemma colRecords_map_person (name account : String)
    (cats roles row : SheetRow) (col : Nat) :
    (colRecords name account cats roles row col).map (fun r => r.person) =
      classifyNames (row.getD col none) := by
  cases hc : cellStr (row.getD col none) with
  | none => rw [colRecords_none hc, classifyNames_none hc]; rfl
  | some pname =>
    rw [colRecords_some hc, classifyNames_some hc]
    cases hp : isPlaceholder pname
    · rw [if_neg (by decide), if_neg (by decide), filterMap_ite,
        List.map_map]
      exact List.map_id _
    · rw [if_pos rfl, if_pos rfl]
      rfl

lemma colRecords_length (name account : String)
    (cats roles row : SheetRow) (col : Nat) :
    (colRecords name account cats roles row col).length =
      (classifyNames (row.getD col none)).length := by
  rw [← colRecords_map_person name account cats roles row col,
    List.length_map]

lemma mem_colRecords {name account : String} {cats roles row : SheetRow}
    {col : Nat} {rec : Record}
    (h : rec ∈ colRecords name account cats roles row col) :
    rec.account = account ∧ rec.role_category = lookBack cats col ∧
      rec.role = lookBack roles col ∧ rec.technology_area = name := by
  cases hc : cellStr (row.getD col none) with
  | none => rw [colRecords_none hc] at h; simp at h
  | some pname =>
    rw [colRecords_some hc] at h
    cases hp : isPlaceholder pname
    · rw [if_neg (by simp [hp])] at h
      obtain ⟨nm, hnm, heq⟩ := List.mem_filterMap.mp h
      cases hq : isPlaceholder nm
      · rw [if_neg (by simp [hq])] at heq
        simp only [Option.some.injEq] at heq
        rw [← heq]
        exact ⟨rfl, rfl, rfl, rfl⟩
      · rw [if_pos hq] at heq
        simp at heq
    · rw [if_pos hp] at h
      simp at h

lemma getD_take {α : Type} (l : List α) (n i : Nat) (d : α) (h : i < n) :
    (l.take n).getD i d = l.getD i d := by
  rw [List.getD_eq_getElem?_getD, List.getD_eq_getElem?_getD,
    List.getElem?_take, if_pos h]

lemma getD_set_ne {α : Type} (l : List α) (i j : Nat) (a d : α)
    (h : i ≠ j) : (l.set i a).getD j d = l.getD j d := by
  rw [List.getD_eq_getElem?_getD, List.getD_eq_getElem?_getD,
    List.getElem?_set_ne h]

lemma gridWidth_cons (r : SheetRow) (g : Grid) :
    gridWidth (r :: g) = max r.length (gridWidth g) := rfl

lemma gridWidth_rect {g : Grid} {k : Nat}
    (hk : ∀ r ∈ g, r.length = k) (hne : g ≠ []) : gridWidth g = k := by
  induction g with
  | nil => exact absurd rfl hne
  | cons r t ih =>
    rcases eq_or_ne t [] with h | h
    · rw [h, gridWidth_cons, hk r (List.mem_cons_self r t)]
      simp [gridWidth]
    · rw [gridWidth_cons, hk r (List.mem_cons_self r t),
        ih (fun x hx => hk x (List.mem_cons_of_mem _ hx)) h]
      exact Nat.max_self k

lemma rowRecords_blank (name : String) (cats roles : SheetRow) (w : Nat)
    (row : SheetRow) (hw : 2 ≤ w)
    (h : cellStr (row.getD 1 none) = none) :
    rowRecords name cats roles w row = .ok [] := by
  unfold rowRecords
  rw [if_neg (by omega), h]

lemma processRows_blank (name : String) (cats roles : SheetRow) (w : Nat)
    (rows : List SheetRow) (hw : 2 ≤ w)
    (h : ∀ row ∈ rows, cellStr (row.getD 1 none) = none) :
    processRows name cats roles w rows = .ok [] := by
  induction rows with
  | nil => rfl
  | cons r rs ih =>
    unfold processRows
    rw [rowRecords_blank name cats roles w r hw
      (h r (List.mem_cons_self r rs)),
      ih (fun x hx => h x (List.mem_cons_of_mem _ hx))]
    rfl

lemma distinctAccountCount_calc (l : List Record) (p : String) :
    distinctAccountCount (calculate_fte_allocations l) p =
      distinctAccountCount l p := by
  unfold distinctAccountCount calculate_fte_allocations
  rw [List.filter_map, List.map_map]
  rfl

lemma lookBack_zero (hdr : SheetRow) :
    lookBack hdr 0 = (cellStr (hdr.getD 0 none)).getD "" := rfl

lemma lookBack_succ_none {hdr : SheetRow} {k : Nat}
    (h : cellStr (hdr.getD (k + 1) none) = none) :
    lookBack hdr (k + 1) = lookBack hdr k := by
  have e : lookBack hdr (k + 1) =
      (match cellStr (hdr.getD (k + 1) none) with
        | some v => v
        | none => lookBack hdr k) := rfl
  rw [e, h]

lemma lookBack_succ_some {hdr : SheetRow} {k : Nat} {v : String}
    (h : cellStr (hdr.getD (k + 1) none) = some v) :
    lookBack hdr (k + 1) = v := by
  unfold lookBack
  rw [h]

lemma lookBack_spec (hdr : SheetRow) (col : Nat) :
    (lookBack hdr col = "" ∧ ∀ c ≤ col, cellStr (hdr.getD c none) = none) ∨
      (∃ c, c ≤ col ∧ cellStr (hdr.getD c none) = some (lookBack hdr col) ∧
        ∀ c2, c < c2 → c2 ≤ col → cellStr (hdr.getD c2 none) = none) := by
  induction col with
  | zero =>
    cases h : cellStr (hdr.getD 0 none) with
    | none =>
      left
      refine ⟨by rw [lookBack_zero, h]; rfl, fun c hc => ?_⟩
      have hc0 : c = 0 := by omega
      rw [hc0]
      exact h
    | some v =>
      right
      exact ⟨0, Nat.le_refl 0, by rw [lookBack_zero, h]; rfl,
        fun c2 h1 h2 => by omega⟩
  | succ k ih =>
    cases h : cellStr (hdr.getD (k + 1) none) with
    | none =>
      have heq : lookBack hdr (k + 1) = lookBack hdr k :=
        lookBack_succ_none h
      rcases ih with ⟨h1, h2⟩ | ⟨c, hc, hv, hnone⟩
      · left
        refine ⟨heq.trans h1, fun c hck => ?_⟩
        rcases Nat.lt_or_ge c (k + 1) with hlt | hge
        · exact h2 c (by omega)
        · have hck2 : c = k + 1 := by omega
          rw [hck2]
          exact h
      · right
        refine ⟨c, by omega, by rw [heq]; exact hv, fun c2 hg hle => ?_⟩
        rcases Nat.lt_or_ge c2 (k + 1) with hlt | hge
        · exact hnone c2 hg (by omega)
        · have hc2 : c2 = k + 1 := by omega
          rw [hc2]
          exact h
    | some v =>
      right
      refine ⟨k + 1, Nat.le_refl _, ?_, fun c2 hg hle => by omega⟩
      rw [lookBack_succ_some h, h]

/-! ### Claim C2 -/

/-- C2 counterexample: the claim says a row whose account cell is a
placeholder such as "TBD" yields zero Records; the code only tests the
account cell for missing/blank (`app.py` line 82), so a "TBD" account row
with a populated personnel cell emits a Record carrying account "TBD". -/
theorem placeholder_account_emits_cex :
    process_excel_file [("S",
      [[], [],
       [none, some "TBD", none, none, none, none, none, some "Alice"]])] =
      .ok [{ account := "TBD", client_type := "", leader := "",
             atl_manager := "", technology_area := "S", role_category := "",
             role := "", person := "Alice", allocation := none }] := rfl

/-- C2 (amended): the Row Extractor skips a data row exactly when the
account-name cell (column index 1) is missing or trims to the empty
string; no placeholder test is applied to the account cell.  For such a
blank-account row zero Records are emitted regardless of the personnel
cells. -/
theorem skip_row_only_on_blank_account (name : String)
    (cats roles : SheetRow) (w : Nat) (row : SheetRow) (hw : 2 ≤ w)
    (h : cellStr (row.getD 1 none) = none) :
    rowRecords name cats roles w row = .ok [] :=
  rowRecords_blank name cats roles w row hw h

/-- Witness for the amended C2: a concrete row whose account cell is
whitespace-only, with a populated personnel cell, emits no Record. -/
theorem skip_row_only_on_blank_account_witness :
    rowRecords "S" [] [] 8
      [none, some "   ", none, none, none, none, none, some "Alice"] =
      .ok [] :=
  skip_row_only_on_blank_account "S" [] [] 8
    [none, some "   ", none, none, none, none, none, some "Alice"]
    (by omega) rfl

/-! ### Claim C3 -/

/-- C3 counterexample: the claim says placeholder matching is
case-insensitive, so a cell "tbd" should yield zero Records; the regex
`^(TBD|N/A|None|Select|-+)$` is compiled without `re.IGNORECASE`, so the
cell "tbd" survives and one Record with person "tbd" is emitted. -/
theorem lowercase_placeholder_emits_cex :
    process_excel_file [("S",
      [[], [],
       [none, some "A", none, none, none, none, none, some "tbd"]])] =
      .ok [{ account := "A", client_type := "", leader := "",
             atl_manager := "", technology_area := "S", role_category := "",
             role := "", person := "tbd", allocation := none }] := rfl

/-- C3 (amended): placeholder exclusion is case-SENSITIVE over the fixed
set TBD, N/A, None, Select and strings of one or more hyphens: blanking a
personnel cell (column ≥ 7) whose trimmed value matches that set leaves
the row's output unchanged, i.e. such a cell contributes zero Records and
raises no error, independent of the surrounding cells. -/
theorem placeholder_cell_emits_nothing (name : String)
    (cats roles : SheetRow) (w : Nat) (row : SheetRow) (col : Nat)
    (s : String) (hcol : 7 ≤ col)
    (hs : cellStr (row.getD col none) = some s)
    (hp : isPlaceholder s = true) :
    rowRecords name cats roles w (row.set col none) =
      rowRecords name cats roles w row := by
  unfold rowRecords
  rw [getD_set_ne row col 1 none none (by omega)]
  by_cases hw2 : w < 2
  · simp only [if_pos hw2]
  · simp only [if_neg hw2]
    cases hacc : cellStr (row.getD 1 none) with
    | none => rfl
    | some account =>
      by_cases hw5 : w < 5
      · simp only [if_pos hw5]
      · simp only [if_neg hw5]
        congr 1
        apply List.flatMap_congr
        intro c hc
        rcases eq_or_ne c col with hceq | hne
        · rw [hceq]
          have hlen : col < row.length := by
            rcases Nat.lt_or_ge col row.length with h1 | h1
            · exact h1
            · rw [List.getD_eq_getElem?_getD,
                List.getElem?_eq_none h1] at hs
              simp [cellStr] at hs
          have hset : cellStr ((row.set col none).getD col none) = none := by
            rw [List.getD_eq_getElem?_getD,
              List.getElem?_set_self (by simpa using hlen)]
            rfl
          rw [colRecords_none hset, colRecords_some hs, if_pos hp]
        · have h2 : (row.set col none).getD c none = row.getD c none :=
            getD_set_ne row col c none none (fun hcc => hne hcc.symm)
          have hm : ∀ k, col ≠ k →
              mgmtField (row.set col none) k = mgmtField row k := by
            intro k hk
            unfold mgmtField
            rw [getD_set_ne row col k none none hk]
          cases hcell : cellStr (row.getD c none) with
          | none =>
            rw [colRecords_none (by rw [h2]; exact hcell),
              colRecords_none hcell]
          | some pname =>
            rw [colRecords_some (show cellStr ((row.set col none).getD c
                none) = some pname by rw [h2]; exact hcell),
              colRecords_some hcell]
            rw [hm 2 (by omega), hm 3 (by omega), hm 4 (by omega)]

/-- Witness for the amended C3: blanking a concrete "TBD" personnel cell
leaves the row's records unchanged. -/
theorem placeholder_cell_emits_nothing_witness :
    rowRecords "S" [] [] 8
        ([none, some "A", none, none, none, none, none, some "TBD"].set
          7 none) =
      rowRecords "S" [] [] 8
        [none, some "A", none, none, none, none, none, some "TBD"] :=
  placeholder_cell_emits_nothing "S" [] [] 8
    [none, some "A", none, none, none, none, none, some "TBD"] 7 "TBD"
    (by omega) rfl rfl

/-! ### Claims C4 and C9 -/

/-- C4: after `calculate_fte_allocations`, every record of a person who
appears under exactly `n` distinct accounts carries `allocation = 1 / n`,
and `n ≥ 1` always holds, so the division is defined. -/
theorem allocation_reciprocal (l : List Record) (rec : Record)
    (h : rec ∈ calculate_fte_allocations l) :
    rec.allocation =
        some (1 / (distinctAccountCount l rec.person : ℚ)) ∧
      1 ≤ distinctAccountCount l rec.person := by
  obtain ⟨r, hr, hfr⟩ := List.mem_map.mp h
  rw [← hfr]
  constructor
  · rfl
  · show 1 ≤ distinctAccountCount l r.person
    unfold distinctAccountCount
    have h1 : r.account ∈
        (l.filter (fun x => x.person = r.person)).map (fun x => x.account) :=
      List.mem_map_of_mem _ (List.mem_filter.mpr ⟨hr, by simp⟩)
    exact List.length_pos.mpr (List.ne_nil_of_mem (List.mem_dedup.mpr h1))

/-- A concrete pool of records: person "P" appears under the three
distinct accounts A1, A2, A3, and person "Q" under the single account
A1. -/
def allocPool : List Record :=
  [{ account := "A1", client_type := "", leader := "", atl_manager := "",
     technology_area := "T", role_category := "", role := "", person := "P",
     allocation := none },
   { account := "A2", client_type := "", leader := "", atl_manager := "",
     technology_area := "T", role_category := "", role := "", person := "P",
     allocation := none },
   { account := "A3", client_type := "", leader := "", atl_manager := "",
     technology_area := "T", role_category := "", role := "", person := "P",
     allocation := none },
   { account := "A1", client_type := "", leader := "", atl_manager := "",
     technology_area := "T", role_category := "", role := "", person := "Q",
     allocation := none }]

/-- The first record of the annotated pool: three-account person "P". -/
def allocPoolHead : Record :=
  { account := "A1", client_type := "", leader := "", atl_manager := "",
    technology_area := "T", role_category := "", role := "", person := "P",
    allocation := some (1 / (distinctAccountCount allocPool "P" : ℚ)) }

/-- Witness for C4: the annotated record of three-account person "P"
carries `allocation = 1/n` with `n = 3`. -/
theorem allocation_reciprocal_witness :
    (allocPoolHead.allocation =
        some (1 / (distinctAccountCount allocPool
          allocPoolHead.person : ℚ)) ∧
      1 ≤ distinctAccountCount allocPool allocPoolHead.person) ∧
      distinctAccountCount allocPool allocPoolHead.person = 3 :=
  ⟨allocation_reciprocal allocPool allocPoolHead (by
    have e : calculate_fte_allocations allocPool =
        allocPoolHead ::
          [{ account := "A2", client_type := "", leader := "",
             atl_manager := "", technology_area := "T", role_category := "",
             role := "", person := "P",
             allocation := some (1 /
               (distinctAccountCount allocPool "P" : ℚ)) },
           { account := "A3", client_type := "", leader := "",
             atl_manager := "", technology_area := "T", role_category := "",
             role := "", person := "P",
             allocation := some (1 /
               (distinctAccountCount allocPool "P" : ℚ)) },
           { account := "A1", client_type := "", leader := "",
             atl_manager := "", technology_area := "T", role_category := "",
             role := "", person := "Q",
             allocation := some (1 /
               (distinctAccountCount allocPool "Q" : ℚ)) }] := rfl
    rw [e]
    exact List.mem_cons_self _ _), rfl⟩

/-- C9: re-running the allocation annotator recomputes allocations from
the `(person, account)` data alone, so a second run reproduces the first
run's output exactly. -/
theorem allocation_idempotent (l : List Record) :
    calculate_fte_allocations (calculate_fte_allocations l) =
      calculate_fte_allocations l := by
  have e : calculate_fte_allocations (calculate_fte_allocations l) =
      (calculate_fte_allocations l).map (fun r =>
        { r with allocation := some (1 /
            (distinctAccountCount (calculate_fte_allocations l)
              r.person : ℚ)) }) := rfl
  rw [e]
  simp only [distinctAccountCount_calc]
  unfold calculate_fte_allocations
  rw [List.map_map]
  exact List.map_congr_left (fun r hr => by cases r; rfl)

/-! ### Claims C1, C5 and C6 -/

lemma rowRecords_ok {name : String} {cats roles : SheetRow} {w : Nat}
    {row : SheetRow} {account : String} (hw : 5 ≤ w)
    (hacc : cellStr (row.getD 1 none) = some account) :
    rowRecords name cats roles w row =
      .ok ((List.range' 7 (w - 7)).flatMap
        (colRecords name account cats roles row)) := by
  unfold rowRecords
  rw [if_neg (show ¬w < 2 by omega), hacc]
  exact if_neg (by omega)

lemma rowRecords_ok_inv {name : String} {cats roles : SheetRow} {w : Nat}
    {row : SheetRow} {l : List Record}
    (hok : rowRecords name cats roles w row = .ok l) :
    l = [] ∨ ∃ account, cellStr (row.getD 1 none) = some account ∧
      l = (List.range' 7 (w - 7)).flatMap
        (colRecords name account cats roles row) := by
  unfold rowRecords at hok
  by_cases hw2 : w < 2
  · rw [if_pos hw2] at hok
    exact absurd hok (by simp)
  · rw [if_neg hw2] at hok
    cases hacc : cellStr (row.getD 1 none) with
    | none =>
      rw [hacc] at hok
      have hok2 : (Except.ok [] : Except Unit (List Record)) = .ok l := hok
      injection hok2 with h
      exact Or.inl h.symm
    | some account =>
      rw [hacc] at hok
      have hok3 : (if w < 5 then (Except.error () : Except Unit (List Record))
          else .ok ((List.range' 7 (w - 7)).flatMap
            (colRecords name account cats roles row))) = .ok l := hok
      by_cases hw5 : w < 5
      · rw [if_pos hw5] at hok3
        exact absurd hok3 (by simp)
      · rw [if_neg hw5] at hok3
        injection hok3 with h
        exact Or.inr ⟨account, rfl, h.symm⟩

set_option maxRecDepth 8000 in
/-- C1 counterexample: the claim quantifies over every data row with
0-based index ≥ 2, but the fixed-offset scan stops after row index 55.  A
sheet whose row 56 holds account "Acme" and personnel "Alice" yields zero
Records even though the classifier produces one name for that cell. -/
theorem no_loss_row_limit_cex :
    process_excel_file [("S",
      [[], []] ++ List.replicate 54 [] ++
        [[none, some "Acme", none, none, none, none, none,
          some "Alice"]])] = .ok [] ∧
      classifyNames (some "Alice") = ["Alice"] := ⟨rfl, rfl⟩

/-- C1 (amended): for every SCANNED data row (row index 2-55) of a sheet
with at least 5 columns whose account cell is non-blank, the extractor
succeeds and emits exactly as many Records as the total number of names
the Cell Classifier produces over all personnel columns (index ≥ 7), each
Record carrying the row's account.  In particular a cell "Alice, Bob"
contributes exactly two names and two Records. -/
theorem no_loss_row_count (name : String) (cats roles : SheetRow)
    (w : Nat) (row : SheetRow) (account : String) (hw : 5 ≤ w)
    (hacc : cellStr (row.getD 1 none) = some account) :
    ∃ l, rowRecords name cats roles w row = .ok l ∧
      l.length = ((List.range' 7 (w - 7)).map
        (fun col => (classifyNames (row.getD col none)).length)).sum ∧
      ∀ rec ∈ l, rec.account = account := by
  refine ⟨_, rowRecords_ok hw hacc, ?_, ?_⟩
  · rw [List.length_flatMap]
    congr 1
    apply List.map_congr_left
    intro c hc
    exact colRecords_length name account cats roles row c
  · intro rec hrec
    obtain ⟨c, hcl, hmem⟩ := List.mem_flatMap.mp hrec
    exact (mem_colRecords hmem).1

/-- Witness for the amended C1: the row with cell "Alice, Bob" at column 7
emits exactly the classifier's name count (two records). -/
theorem no_loss_row_count_witness :
    ∃ l, rowRecords "S" [] [] 8
        [none, some "Acme", none, none, none, none, none,
          some "Alice, Bob"] = .ok l ∧
      l.length = ((List.range' 7 (8 - 7)).map
        (fun col => (classifyNames ([none, some "Acme", none, none, none,
          none, none, some "Alice, Bob"].getD col none)).length)).sum ∧
      ∀ rec ∈ l, rec.account = "Acme" :=
  no_loss_row_count "S" [] [] 8
    [none, some "Acme", none, none, none, none, none, some "Alice, Bob"]
    "Acme" (by omega) rfl

/-- C6: for a scanned data row, the emitted persons are, in column order,
exactly the names the Cell Classifier produces for each personnel cell —
the trimmed value split on commas when a comma is present, else on slashes
when a slash is present, else kept whole, with blank and placeholder
pieces dropped — and every emitted person is non-blank and not a
placeholder; a cell all of whose pieces are dropped contributes nothing,
with no error. -/
theorem cell_splitting_names (name : String) (cats roles : SheetRow)
    (w : Nat) (row : SheetRow) (account : String) (hw : 5 ≤ w)
    (hacc : cellStr (row.getD 1 none) = some account) :
    ∃ l, rowRecords name cats roles w row = .ok l ∧
      l.map (fun r => r.person) = (List.range' 7 (w - 7)).flatMap
        (fun col => classifyNames (row.getD col none)) ∧
      ∀ rec ∈ l, rec.person ≠ "" ∧ isPlaceholder rec.person = false := by
  refine ⟨_, rowRecords_ok hw hacc, ?_, ?_⟩
  · rw [List.map_flatMap]
    apply List.flatMap_congr
    intro c hc
    exact colRecords_map_person name account cats roles row c
  · intro rec hrec
    obtain ⟨c, hcl, hmem⟩ := List.mem_flatMap.mp hrec
    have hp : rec.person ∈ classifyNames (row.getD c none) := by
      rw [← colRecords_map_person name account cats roles row c]
      exact List.mem_map_of_mem _ hmem
    exact mem_classifyNames hp

/-- Witness for C6: the cell "Ann / TBD" splits on the slash, the piece
"TBD" is dropped, and exactly the person "Ann" is emitted. -/
theorem cell_splitting_names_witness :
    ∃ l, rowRecords "S" [] [] 8
        [none, some "Acme", none, none, none, none, none,
          some "Ann / TBD"] = .ok l ∧
      l.map (fun r => r.person) = (List.range' 7 (8 - 7)).flatMap
        (fun col => classifyNames ([none, some "Acme", none, none, none,
          none, none, some "Ann / TBD"].getD col none)) ∧
      ∀ rec ∈ l, rec.person ≠ "" ∧ isPlaceholder rec.person = false :=
  cell_splitting_names "S" [] [] 8
    [none, some "Acme", none, none, none, none, none, some "Ann / TBD"]
    "Acme" (by omega) rfl

/-- C5: every emitted Record's role and category come from the leftward
scans starting at the Record's own personnel column (index ≥ 7), and the
category value is characterised as the label of the greatest labelled
category-row column at or before that column — the first non-empty label
found scanning leftwards — or the empty string when no label exists at or
before it. -/
theorem category_inherited_leftward (name : String) (cats roles : SheetRow)
    (w : Nat) (row : SheetRow) (l : List Record) (rec : Record)
    (hok : rowRecords name cats roles w row = .ok l) (hrec : rec ∈ l) :
    ∃ col, 7 ≤ col ∧ col < w ∧ rec.role = lookBack roles col ∧
      rec.role_category = lookBack cats col ∧
      ((rec.role_category = "" ∧
          ∀ c, c ≤ col → cellStr (cats.getD c none) = none) ∨
        (∃ c, c ≤ col ∧
          cellStr (cats.getD c none) = some rec.role_category ∧
          ∀ c2, c < c2 → c2 ≤ col → cellStr (cats.getD c2 none) = none)) := by
  rcases rowRecords_ok_inv hok with rfl | ⟨account, hacc, rfl⟩
  · simp at hrec
  · obtain ⟨col, hcl, hmem⟩ := List.mem_flatMap.mp hrec
    have hr := List.mem_range'_1.mp hcl
    obtain ⟨ha, hcat, hrole, hta⟩ := mem_colRecords hmem
    refine ⟨col, hr.1, by omega, hrole, hcat, ?_⟩
    rw [hcat]
    exact lookBack_spec cats col

/-! ### Claim C10 -/

/-- C10: under the fixed-offset extraction only the first 56 rows of a
sheet influence the result — processing a rectangular sheet equals
processing its first 56 rows, so no Record is ever emitted from a row
with 0-based index ≥ 56, however its cells are populated.  (The
rectangularity hypothesis reflects the pandas frame, all of whose rows
have width `df.shape[1]`.) -/
theorem row_limit_56 (name : String) (g : Grid)
    (hrect : ∀ r ∈ g, r.length = gridWidth g) :
    processSheet name g = processSheet name (g.take 56) := by
  rcases le_or_lt g.length 56 with h | h
  · rw [List.take_of_length_le h]
  · have hlen : (g.take 56).length = 56 := by
      rw [List.length_take]
      omega
    have hw : gridWidth (g.take 56) = gridWidth g := by
      apply gridWidth_rect
      · intro r hr
        exact hrect r (List.take_subset _ _ hr)
      · intro hnil
        rw [hnil] at hlen
        simp at hlen
    have h0L : ¬(g.length = 0) := by omega
    have h1L : ¬(g.length = 1) := by omega
    have h0R : ¬((List.take 56 g).length = 0) := by rw [hlen]; omega
    have h1R : ¬((List.take 56 g).length = 1) := by rw [hlen]; omega
    unfold processSheet
    rw [if_neg h0L, if_neg h1L, if_neg h0R, if_neg h1R, hw,
      getD_take g 56 0 [] (by omega), getD_take g 56 1 [] (by omega),
      List.take_take, Nat.min_self]

set_option maxRecDepth 8000 in
/-- Witness for C10: a 57-row rectangular sheet is processed identically
to its 56-row truncation. -/
theorem row_limit_56_witness :
    processSheet "S" (List.replicate 57 (List.replicate 8 (none : Cell))) =
      processSheet "S"
        ((List.replicate 57 (List.replicate 8 (none : Cell))).take 56) :=
  row_limit_56 "S" (List.replicate 57 (List.replicate 8 (none : Cell))) (by
    intro r hr
    rw [List.eq_of_mem_replicate hr]
    rfl)

/-! ### Claim C8 -/

/-- C8 counterexample: a workbook whose only sheet has a single non-empty
row contains no extractable data rows, yet the role-header loop
`df.iloc[1, col]` raises IndexError there, so extraction raises instead
of returning an empty Record list. -/
theorem single_row_sheet_raises_cex :
    process_excel_file [("S", [[some "x"]])] = .error () := rfl

/-- C8 (amended): a workbook with zero sheets yields the empty Record
list, and so does every workbook whose sheets all have at least two rows,
at least two columns, and only blank account cells in their scanned data
rows (in particular, header-rows-only sheets); a sheet with exactly one
non-empty row instead raises. -/
theorem empty_workbook_ok (sheets : List (String × Grid))
    (h : ∀ p ∈ sheets, 2 ≤ p.2.length ∧ 2 ≤ gridWidth p.2 ∧
      ∀ row ∈ (p.2.take 56).drop 2, cellStr (row.getD 1 none) = none) :
    process_excel_file sheets = .ok [] := by
  induction sheets with
  | nil => rfl
  | cons p rest ih =>
    obtain ⟨n, g⟩ := p
    obtain ⟨hlen, hwid, hrows⟩ := h (n, g) (List.mem_cons_self _ _)
    dsimp only at hlen hwid hrows
    have hsheet : processSheet n g = .ok [] := by
      unfold processSheet
      rw [if_neg (by omega), if_neg (by omega)]
      exact processRows_blank n (g.getD 0 []) (g.getD 1 []) (gridWidth g)
        ((g.take 56).drop 2) hwid hrows
    unfold process_excel_file
    rw [hsheet, ih (fun q hq => h q (List.mem_cons_of_mem _ hq))]
    rfl

/-- Witness for the amended C8: a one-sheet workbook with header rows
only (two rows, two columns, no data rows) yields the empty list. -/
theorem empty_workbook_ok_witness :
    process_excel_file [("A", [[some "h", some "x"], [none, none]])] =
      .ok [] :=
  empty_workbook_ok [("A", [[some "h", some "x"], [none, none]])]
    (by decide)

/-! ### Claim C7 -/

/-- C7 counterexample: the claim says no exception escapes the
label-search extraction; but on a sheet whose header row contains the
exact cell "Coverage Name" while no column is labelled "ATL Manager", the
role-column loop evaluates `col_idx <= None` and raises TypeError, which
escapes the whole extraction. -/
theorem missing_manager_column_raises_cex :
    process_excel_file_ls [("S", [[some "Coverage Name"]])] = .error () :=
  rfl

/-- C7 (amended): a sheet in which header resolution fails because no
cell equals "Coverage Name" is skipped in its entirety — the label-search
extraction of a workbook starting with such a sheet equals the extraction
of the remaining sheets, with no exception arising from the skipped
sheet.  (A sheet that does match the header label but lacks the manager
column raises instead; see the counterexample.) -/
theorem headerless_sheet_skipped (n : String) (g : Grid)
    (rest : List (String × Grid)) (h : findHeaderRow g = none) :
    process_excel_file_ls ((n, g) :: rest) = process_excel_file_ls rest := by
  have hs : lsProcessSheet n g = .ok [] := by
    unfold lsProcessSheet
    rw [h]
  have e : process_excel_file_ls ((n, g) :: rest) =
      match lsProcessSheet n g with
      | .error e => .error e
      | .ok xs =>
        match process_excel_file_ls rest with
        | .error e => .error e
        | .ok ys => .ok (xs ++ ys) := rfl
  rw [e, hs]
  show (match process_excel_file_ls rest with
    | .error e => (.error e : Except Unit (List Record))
    | .ok ys => .ok ([] ++ ys)) = process_excel_file_ls rest
  cases process_excel_file_ls rest with
  | error e => rfl
  | ok ys =>
    show Except.ok ([] ++ ys) = Except.ok ys
    rw [List.nil_append]

/-- A well-formed label-search sheet: all four management labels plus one
role column, and one data row. -/
def goodGrid : Grid :=
  [[some "Coverage Name", some "Client Sub Type", some "Leader",
    some "ATL Manager", some "Engineer"],
   [some "Acme", some "Ent", some "Jo", some "Mo", some "Alice"]]

/-- Witness for the amended C7: a workbook with one header-less sheet and
one well-formed sheet yields exactly the well-formed sheet's Records. -/
theorem headerless_sheet_skipped_witness :
    process_excel_file_ls
        [("Bad", [[some "nothing"]]), ("Good", goodGrid)] =
      .ok [{ account := "Acme", client_type := "Ent", leader := "Jo",
             atl_manager := "Mo", technology_area := "Good",
             role_category := "", role := "Engineer", person := "Alice",
             allocation := none }] := by
  rw [headerless_sheet_skipped "Bad" [[some "nothing"]]
    [("Good", goodGrid)] rfl]
  rfl

/-- Category row of the C5 example: label "Data" at column 0 and label
"Infra" at column 8, blanks elsewhere. -/
def catsEx : SheetRow :=
  [some "Data", none, none, none, none, none, none, none, some "Infra"]

/-- Data row of the C5 example: account at column 1, persons at
columns 7 and 9. -/
def rowEx : SheetRow :=
  [none, some "Acme", none, none, none, none, none, some "Ann", none,
   some "Bea"]

/-- The record emitted for column 7 of `rowEx`: its category resolves
leftwards to "Data" at column 0. -/
def recAnn : Record :=
  { account := "Acme", client_type := "", leader := "", atl_manager := "",
    technology_area := "S", role_category := "Data", role := "",
    person := "Ann", allocation := none }

/-- The record emitted for column 9 of `rowEx`: its category resolves
leftwards to "Infra" at column 8. -/
def recBea : Record :=
  { account := "Acme", client_type := "", leader := "", atl_manager := "",
    technology_area := "S", role_category := "Infra", role := "",
    person := "Bea", allocation := none }

/-- Witness for C5: on the concrete example the record of column 7
carries the category "Data" inherited from column 0. -/
theorem category_inherited_leftward_witness :
    ∃ col, 7 ≤ col ∧ col < 10 ∧ recAnn.role = lookBack [] col ∧
      recAnn.role_category = lookBack catsEx col ∧
      ((recAnn.role_category = "" ∧
          ∀ c, c ≤ col → cellStr (catsEx.getD c none) = none) ∨
        (∃ c, c ≤ col ∧
          cellStr (catsEx.getD c none) = some recAnn.role_category ∧
          ∀ c2, c < c2 → c2 ≤ col → cellStr (catsEx.getD c2 none) = none)) :=
  category_inherited_leftward "S" catsEx [] 10 rowEx [recAnn, recBea]
    recAnn rfl (List.mem_cons_self _ _)
